import Mathlib

/-!
Verification development for the energy-insights application (`src/app.py`).

We shallowly embed the three core transformations of the program:

* `parse_bayou_to_palmetto` (app.py lines 201-279): normalization of Bayou
  bill/meter records into the Palmetto prediction payload;
* `parse_response` (app.py lines 121-130): aggregation of the Palmetto
  interval response into a month-name-keyed mapping;
* the readiness-polling loop of `get_bayou_data` (app.py lines 62-98),
  embedded as a trace count over an oracle of status responses.

Python JSON dicts are embedded as structures whose possibly-absent keys are
`Option` fields; Python string truthiness is the predicate `truthy`;
numbers are embedded as `ℚ`; fallible code returns `Except`.
-/

namespace EnergyInsights

/-- An address dict as it appears on an electric meter. `line_1`, `city`,
`state` and `postal_code` are accessed unconditionally by the source
(app.py lines 230-233), so they are required fields; `line_2` is read with
`.get` and so is optional. -/
structure Address where
  line_1 : String
  line_2 : Option String
  city : String
  state : String
  postal_code : String
deriving DecidableEq, Repr

/-- A meter dict inside a bill. All four keys are read with `.get` /
membership tests in the source, so all are optional. -/
structure MeterRecord where
  type : Option String
  billing_period_from : Option String
  billing_period_to : Option String
  address : Option Address
deriving DecidableEq, Repr

/-- A bill dict. The source tests `"meters" not in first_bill` (line 215)
and `"electricity_consumption" in bill` (line 253), so both keys are
optional. -/
structure BillRecord where
  meters : Option (List MeterRecord)
  electricity_consumption : Option ℚ
deriving DecidableEq, Repr

/-- The `bayou_data` dict handed to `parse_bayou_to_palmetto`; the source
tests `"bills" not in bayou_data` (line 205), so the key is optional.
A `None` or empty (falsy) `bayou_data` is embedded as `none` at the call
site (see `parse_bayou_to_palmetto`). -/
structure BayouData where
  bills : Option (List BillRecord)
deriving DecidableEq, Repr

/-- The distinct failure outcomes of `parse_bayou_to_palmetto`:
`noBills` is the string "No bills data available" (line 206),
`noMeters` is "No meters found in bills" (line 216),
`noElectricMeter` is "No electric meter with address found" (line 226),
`parseError` is the catch-all "Error parsing Bayou data: ..." produced by
the `except Exception` clause (lines 277-279). -/
inductive NormalizationError where
  | noBills
  | noMeters
  | noElectricMeter
  | parseError
deriving DecidableEq, Repr

/-- One entry of the `actuals` list built at app.py lines 259-264. -/
structure ConsumptionInterval where
  from_datetime : String
  to_datetime : String
  variable_name : String
  value : ℚ
deriving DecidableEq, Repr

/-- The fixed `parameters` sub-dict of the payload (app.py lines 239-244);
`variable_list` embeds the `"variables"` key, whose name Lean reserves. -/
structure PalmettoParameters where
  from_datetime : String
  to_datetime : String
  variable_list : List String
  group_by : String
deriving DecidableEq, Repr

/-- The `location` sub-dict of the payload (app.py lines 245-247). -/
structure PalmettoLocation where
  address : String
deriving DecidableEq, Repr

/-- The payload built by `parse_bayou_to_palmetto` (app.py lines 238-270).
`consumption` is `none` exactly when the source never executes the
`payload["consumption"] = ...` assignment at line 268. -/
structure PalmettoPayload where
  parameters : PalmettoParameters
  location : PalmettoLocation
  consumption : Option (List ConsumptionInterval)
deriving DecidableEq, Repr

/-- Python truthiness of an optional string field read with `.get`:
truthy iff present and non-empty. -/
def truthy : Option String → Bool
  | none => false
  | some s => s ≠ ""

/-- The scan at app.py lines 219-223: the first meter whose `type` is
`"electric"`, irrespective of any other field. -/
def findElectricMeter : List MeterRecord → Option MeterRecord
  | [] => none
  | m :: rest =>
    if m.type = some "electric" then some m else findElectricMeter rest

/-- The address-source lookup of app.py lines 214-226: requires the
`meters` key on the first bill, then the first electric meter, then an
`address` key on that meter. -/
def electricMeterAddress (first_bill : BillRecord) :
    Except NormalizationError Address :=
  match first_bill.meters with
  | none => .error .noMeters
  | some meters =>
    match findElectricMeter meters with
    | none => .error .noElectricMeter
    | some electric_meter =>
      match electric_meter.address with
      | none => .error .noElectricMeter
      | some address => .ok address

/-- The f-string formatting at app.py lines 230-233: start from `line_1`,
append a space and `line_2` when `address.get('line_2')` is truthy, then
append `", city, state postal_code"`. -/
def formatAddress (a : Address) : String :=
  let s := a.line_1
  let s := match a.line_2 with
    | some l2 => if l2 ≠ "" then s ++ " " ++ l2 else s
    | none => s
  s ++ ", " ++ a.city ++ ", " ++ a.state ++ " " ++ a.postal_code

/-- The guard of the inner meter loop at app.py lines 256-258: type is
`"electric"` and both billing-period bounds are truthy. -/
def isQualifyingMeter (m : MeterRecord) : Bool :=
  m.type = some "electric" &&
    truthy m.billing_period_from && truthy m.billing_period_to

/-- The inner `for meter in bill.get("meters", [])` loop of app.py lines
255-265: it stops (`break`) at the first meter passing
`isQualifyingMeter`. -/
def findConsumptionMeter : List MeterRecord → Option MeterRecord
  | [] => none
  | m :: rest =>
    if isQualifyingMeter m then some m else findConsumptionMeter rest

/-- The contribution of one bill to `actuals` (app.py lines 252-265): a
bill without the `electricity_consumption` key contributes nothing; one
with it contributes the single interval of its first qualifying meter, or
nothing when no meter qualifies. -/
def billActuals (bill : BillRecord) : List ConsumptionInterval :=
  match bill.electricity_consumption with
  | none => []
  | some c =>
    match findConsumptionMeter (bill.meters.getD []) with
    | none => []
    | some m =>
      [{ from_datetime := m.billing_period_from.getD ""
       , to_datetime := m.billing_period_to.getD ""
       , variable_name := "consumption.electricity"
       , value := c / 1000 }]

/-- The whole `actuals` list accumulated over the outer
`for bill in bayou_data["bills"]` loop (app.py lines 251-265). -/
def actualsOf (bills : List BillRecord) : List ConsumptionInterval :=
  bills.flatMap billActuals

/-- Shallow embedding of `parse_bayou_to_palmetto` (app.py lines 201-279).
The `none` input stands for a falsy `bayou_data`; a present dict without
the `"bills"` key is `some ⟨none⟩`; both fail with `noBills` (lines
205-206). An empty bills list passes that guard, and `bayou_data["bills"][0]`
then raises `IndexError`, caught by the `except Exception` clause at line
277: this is `parseError`, not `noBills`. -/
def parse_bayou_to_palmetto (bayou_data : Option BayouData) :
    Except NormalizationError PalmettoPayload :=
  match bayou_data with
  | none => .error .noBills
  | some d =>
    match d.bills with
    | none => .error .noBills
    | some [] => .error .parseError
    | some (first_bill :: rest) =>
      match electricMeterAddress first_bill with
      | .error e => .error e
      | .ok address =>
        let actuals := actualsOf (first_bill :: rest)
        .ok { parameters :=
                { from_datetime := "2025-01-01T00:00:00"
                , to_datetime := "2025-12-31T23:59:59"
                , variable_list := ["consumption.electricity"]
                , group_by := "month" }
            , location := { address := formatAddress address }
            , consumption := if actuals = [] then none else some actuals }

/-- One entry of `parsed['data']['intervals']` in `parse_response`
(app.py lines 121-130); both keys are accessed with `[...]` and may be
absent (`KeyError`). -/
structure IntervalEntry where
  from_datetime : Option String
  value : Option ℚ
deriving DecidableEq, Repr

/-- The failure outcomes of `parse_response`: `missingField` is the
`KeyError` on `'from_datetime'` or `'value'` (spec name
`AggregationError:MissingField`); `invalidDatetime` is the `ValueError`
raised by `datetime.fromisoformat` on a malformed string. -/
inductive AggregationError where
  | missingField
  | invalidDatetime
deriving DecidableEq, Repr

/-- Calendar-month extraction of `datetime.fromisoformat`: an ISO string
starts `YYYY-MM...`; the month is the two digits at positions 5-6, valid
when between 1 and 12. Non-conforming strings fail, as `fromisoformat`
raises `ValueError`. -/
def isoMonth (s : String) : Option Nat :=
  match s.toList with
  | y1 :: y2 :: y3 :: y4 :: d :: m1 :: m2 :: _ =>
    if y1.isDigit ∧ y2.isDigit ∧ y3.isDigit ∧ y4.isDigit ∧ d = '-' ∧
        m1.isDigit ∧ m2.isDigit then
      let m := (m1.toNat - 48) * 10 + (m2.toNat - 48)
      if 1 ≤ m ∧ m ≤ 12 then some m else none
    else none
  | _ => none

/-- `strftime('%B')`: the full English month name (app.py line 128). -/
def monthName : Nat → String
  | 1 => "January"
  | 2 => "February"
  | 3 => "March"
  | 4 => "April"
  | 5 => "May"
  | 6 => "June"
  | 7 => "July"
  | 8 => "August"
  | 9 => "September"
  | 10 => "October"
  | 11 => "November"
  | 12 => "December"
  | _ => ""

/-- The `predictions` dict of `parse_response`, embedded by its lookup
function: month name to predicted value. -/
def Predictions : Type := String → Option ℚ

/-- The empty dict `predictions = {}` (app.py line 126). -/
def emptyPredictions : Predictions := fun _ => none

/-- The dict assignment `predictions[month] = value` (app.py line 129). -/
def setMonth (p : Predictions) (k : String) (v : ℚ) : Predictions :=
  fun k' => if k' = k then some v else p k'

/-- The loop of `parse_response` (app.py lines 127-129), carrying the
dict built so far. Each iteration reads `from_datetime` (KeyError when
absent), parses it (ValueError when malformed), reads `value` (KeyError
when absent), and assigns under the month name. -/
def parseResponseGo :
    List IntervalEntry → Predictions → Except AggregationError Predictions
  | [], acc => .ok acc
  | e :: rest, acc =>
    match e.from_datetime with
    | none => .error .missingField
    | some s =>
      match isoMonth s with
      | none => .error .invalidDatetime
      | some m =>
        match e.value with
        | none => .error .missingField
        | some v => parseResponseGo rest (setMonth acc (monthName m) v)

/-- Shallow embedding of `parse_response` (app.py lines 121-130), taking
the already-decoded `data.intervals` list. -/
def parse_response (intervals : List IntervalEntry) :
    Except AggregationError Predictions :=
  parseResponseGo intervals emptyPredictions

/-- The month-name key an entry would be filed under, when derivable. -/
def entryKey (e : IntervalEntry) : Option String :=
  e.from_datetime.bind fun s => (isoMonth s).map monthName

/-- The (month name, value) pairs of the well-formed entries of a
response, in response order. -/
def entryKVs (l : List IntervalEntry) : List (String × ℚ) :=
  l.filterMap fun e =>
    match entryKey e, e.value with
    | some k, some v => some (k, v)
    | _, _ => none

/-- First-match lookup in an association list (used to state the
last-write-wins property of the dict via the reversed list). -/
def firstVal : List (String × ℚ) → String → Option ℚ
  | [], _ => none
  | (k, v) :: rest, k' => if k' = k then some v else firstVal rest k'

/-- Observable trace of one `get_bayou_data` run (app.py lines 62-98):
how many status requests were made, how many time units were spent in
`time.sleep`, and how many bills requests were made. -/
structure BayouFetchTrace where
  statusChecks : Nat
  sleepUnits : Nat
  billsRequests : Nat
deriving DecidableEq, Repr

/-- The `while True` readiness loop (app.py lines 65-82) run against an
oracle listing the successive `bills_are_ready` flags: each iteration
makes one status request; on a ready flag it breaks, otherwise it sleeps
5 units and re-checks. `none` means the oracle was exhausted with the
loop still pending. -/
def pollForReady : List Bool → Option (Nat × Nat)
  | [] => none
  | ready :: rest =>
    if ready then some (1, 0)
    else
      match pollForReady rest with
      | some (checks, slept) => some (checks + 1, slept + 5)
      | none => none

/-- Shallow embedding of the control flow of `get_bayou_data` (app.py
lines 53-100): poll until ready, then make exactly one bills request
(lines 85-88). -/
def get_bayou_data_trace (statuses : List Bool) : Option BayouFetchTrace :=
  (pollForReady statuses).map fun cs =>
    { statusChecks := cs.1, sleepUnits := cs.2, billsRequests := 1 }

/-- Sample full address (the one of spec §8's end-to-end scenario). -/
def addrA : Address := ⟨"123 Main St", none, "Springfield", "IL", "62701"⟩

/-- An electric meter carrying no address key. -/
def meterNoAddr : MeterRecord := ⟨some "electric", none, none, none⟩

/-- An electric meter carrying an address but no billing period. -/
def meterWithAddr : MeterRecord := ⟨some "electric", none, none, some addrA⟩

/-- An electric meter with both an address and a full billing period. -/
def goodMeter : MeterRecord :=
  ⟨some "electric", some "2025-01-01T00:00:00", some "2025-01-31T00:00:00",
   some addrA⟩

/-- A non-electric meter with a full billing period. -/
def gasMeter : MeterRecord :=
  ⟨some "gas", some "2025-02-01T00:00:00", some "2025-02-28T00:00:00", none⟩

/-- A bill with consumption 12000 and one fully-populated electric meter. -/
def goodBill : BillRecord := ⟨some [goodMeter], some 12000⟩

/-- A bill carrying a consumption value but only a gas meter. -/
def gasOnlyBill : BillRecord := ⟨some [gasMeter], some 7000⟩

/-- Two March-dated interval entries, values 10 then 20 (spec §8's
month-collision scenario). -/
def marchResponse : List IntervalEntry :=
  [⟨some "2025-03-01T00:00:00", some 10⟩,
   ⟨some "2025-03-15T00:00:00", some 20⟩]

/-! ### Shared lemmas about the embedded operations -/

/-- The consumption-meter loop is first-match search with the loop guard. -/
theorem findConsumptionMeter_eq_find (l : List MeterRecord) :
    findConsumptionMeter l = l.find? isQualifyingMeter := by
  induction l with
  | nil => rfl
  | cons m rest ih =>
    cases h : isQualifyingMeter m <;>
      simp [findConsumptionMeter, List.find?, h, ih]

/-- The address-meter loop is first-match search on the meter type. -/
theorem findElectricMeter_eq_find (l : List MeterRecord) :
    findElectricMeter l = l.find? fun m => m.type = some "electric" := by
  induction l with
  | nil => rfl
  | cons m rest ih =>
    by_cases h : m.type = some "electric" <;>
      simp [findElectricMeter, List.find?, h, ih]

/-- Introduction form for a successful address lookup. -/
theorem electricMeterAddress_ok_of (b : BillRecord) (ms : List MeterRecord)
    (em : MeterRecord) (a : Address) (hm : b.meters = some ms)
    (he : findElectricMeter ms = some em) (ha : em.address = some a) :
    electricMeterAddress b = .ok a := by
  simp only [electricMeterAddress, hm, he, ha]

/-- Elimination form for a successful address lookup. -/
theorem electricMeterAddress_ok_elim (b : BillRecord) (a : Address)
    (h : electricMeterAddress b = .ok a) :
    ∃ ms em, b.meters = some ms ∧ findElectricMeter ms = some em ∧
      em.address = some a := by
  cases hm : b.meters with
  | none =>
    simp only [electricMeterAddress, hm] at h
    exact absurd h (by simp)
  | some ms =>
    simp only [electricMeterAddress, hm] at h
    cases he : findElectricMeter ms with
    | none =>
      simp only [he] at h
      exact absurd h (by simp)
    | some em =>
      simp only [he] at h
      cases ha : em.address with
      | none =>
        simp only [ha] at h
        exact absurd h (by simp)
      | some a2 =>
        simp only [ha, Except.ok.injEq] at h
        subst h
        exact ⟨ms, em, rfl, he, ha⟩

/-- Reduction of the normalizer on a successful address lookup. -/
theorem parse_ok_of_address (b : BillRecord) (rest : List BillRecord)
    (a : Address) (h : electricMeterAddress b = .ok a) :
    parse_bayou_to_palmetto (some ⟨some (b :: rest)⟩) =
      .ok { parameters :=
              { from_datetime := "2025-01-01T00:00:00"
              , to_datetime := "2025-12-31T23:59:59"
              , variable_list := ["consumption.electricity"]
              , group_by := "month" }
          , location := { address := formatAddress a }
          , consumption :=
              if actualsOf (b :: rest) = [] then none
              else some (actualsOf (b :: rest)) } := by
  simp only [parse_bayou_to_palmetto]
  rw [h]

/-- Reduction of the normalizer on a failed address lookup. -/
theorem parse_err_of_address (b : BillRecord) (rest : List BillRecord)
    (e : NormalizationError) (h : electricMeterAddress b = .error e) :
    parse_bayou_to_palmetto (some ⟨some (b :: rest)⟩) = .error e := by
  simp only [parse_bayou_to_palmetto]
  rw [h]

/-- The f-string formatting, re-associated into the spec §4.3 step 4 shape
`line_1[ line_2], city, state postal_code`. -/
theorem formatAddress_eq_spec (a : Address) :
    formatAddress a =
      a.line_1 ++
        (match a.line_2 with
         | some l2 => if l2 ≠ "" then " " ++ l2 else ""
         | none => "") ++
        ", " ++ a.city ++ ", " ++ a.state ++ " " ++ a.postal_code := by
  unfold formatAddress
  cases h2 : a.line_2 with
  | none => simp [String.append_empty]
  | some l2 =>
    by_cases h : l2 = ""
    · subst h
      simp [String.append_empty]
    · simp [h, String.append_assoc]

/-- `actuals` accumulation distributes over list append. -/
theorem actualsOf_append (xs ys : List BillRecord) :
    actualsOf (xs ++ ys) = actualsOf xs ++ actualsOf ys := by
  simp [actualsOf]

/-- `actuals` accumulation unfolds one bill at a time. -/
theorem actualsOf_cons (b : BillRecord) (rest : List BillRecord) :
    actualsOf (b :: rest) = billActuals b ++ actualsOf rest := by
  simp [actualsOf]

/-- First-match lookup splits over list append. -/
theorem firstVal_append (xs ys : List (String × ℚ)) (k : String) :
    firstVal (xs ++ ys) k =
      match firstVal xs k with
      | some v => some v
      | none => firstVal ys k := by
  induction xs with
  | nil => rfl
  | cons p rest ih =>
    obtain ⟨k0, v0⟩ := p
    by_cases h : k = k0
    · simp [firstVal, h]
    · simp [firstVal, h, ih]

/-- In any completed poll, at least one check was made and every pending
iteration slept exactly 5 time units. -/
theorem pollForReady_law (statuses : List Bool) (checks slept : Nat)
    (h : pollForReady statuses = some (checks, slept)) :
    1 ≤ checks ∧ slept = 5 * (checks - 1) := by
  induction statuses generalizing checks slept with
  | nil => simp [pollForReady] at h
  | cons ready rest ih =>
    cases ready with
    | true =>
      simp [pollForReady] at h
      omega
    | false =>
      simp only [pollForReady, if_false, Bool.false_eq_true] at h
      cases hp : pollForReady rest with
      | none => rw [hp] at h; simp at h
      | some cs =>
        obtain ⟨c, s⟩ := cs
        rw [hp] at h
        simp at h
        obtain ⟨h1, h2⟩ := h
        obtain ⟨hc, hs⟩ := ih c s hp
        omega

/-- Well-formed entries prepend their key-value pair to `entryKVs`. -/
theorem entryKVs_cons_of (e : IntervalEntry) (rest : List IntervalEntry)
    (k : String) (v : ℚ) (hk : entryKey e = some k) (hv : e.value = some v) :
    entryKVs (e :: rest) = (k, v) :: entryKVs rest := by
  simp [entryKVs, List.filterMap_cons, hk, hv]

/-- On well-formed entries the response loop succeeds, and the dict built
over an arbitrary starting dict answers each lookup by the latest entry
filed under that key, falling back to the starting dict. -/
theorem parseResponseGo_ok (l : List IntervalEntry) :
    ∀ acc : Predictions,
    (∀ e ∈ l, (entryKey e).isSome = true ∧ e.value.isSome = true) →
    ∃ f, parseResponseGo l acc = .ok f ∧
      ∀ name, f name =
        match firstVal (entryKVs l).reverse name with
        | some v => some v
        | none => acc name := by
  induction l with
  | nil =>
    intro acc _
    refine ⟨acc, rfl, fun name => ?_⟩
    simp [entryKVs, firstVal]
  | cons e rest ih =>
    intro acc h
    obtain ⟨hk, hv⟩ := h e (by simp)
    cases hfd : e.from_datetime with
    | none => simp [entryKey, hfd] at hk
    | some s =>
      cases him : isoMonth s with
      | none => simp [entryKey, hfd, him] at hk
      | some m =>
        cases hval : e.value with
        | none => simp [hval] at hv
        | some v =>
          have hke : entryKey e = some (monthName m) := by
            simp [entryKey, hfd, him]
          have hstep : parseResponseGo (e :: rest) acc =
              parseResponseGo rest (setMonth acc (monthName m) v) := by
            simp [parseResponseGo, hfd, him, hval]
          obtain ⟨f, hok, hf⟩ :=
            ih (setMonth acc (monthName m) v)
              (fun e2 he2 => h e2 (by simp [he2]))
          refine ⟨f, by rw [hstep]; exact hok, fun name => ?_⟩
          rw [hf name, entryKVs_cons_of e rest (monthName m) v hke hval,
            List.reverse_cons, firstVal_append]
          cases hfv : firstVal (entryKVs rest).reverse name with
          | some w => simp
          | none =>
            by_cases hn : name = monthName m
            · simp [firstVal, setMonth, hn]
            · simp [firstVal, setMonth, hn]

/-- If every present `from_datetime` parses but some entry lacks `value`
or `from_datetime`, the response loop raises the missing-field failure,
whatever dict has been built so far. -/
theorem parseResponseGo_missing (l : List IntervalEntry) :
    ∀ acc : Predictions,
    (∀ e ∈ l, e.from_datetime.all (fun s => (isoMonth s).isSome) = true) →
    (∃ e ∈ l, e.value = none ∨ e.from_datetime = none) →
    parseResponseGo l acc = .error .missingField := by
  induction l with
  | nil =>
    intro acc _ hmiss
    simp at hmiss
  | cons e rest ih =>
    intro acc hdt hmiss
    cases hfd : e.from_datetime with
    | none => simp [parseResponseGo, hfd]
    | some s =>
      have hdte := hdt e (by simp)
      rw [hfd] at hdte
      simp only [Option.all_some] at hdte
      obtain ⟨m, him⟩ := Option.isSome_iff_exists.mp hdte
      cases hval : e.value with
      | none => simp [parseResponseGo, hfd, him, hval]
      | some v =>
        have hrest : ∃ e2 ∈ rest, e2.value = none ∨ e2.from_datetime = none := by
          obtain ⟨e2, he2, hor⟩ := hmiss
          rcases List.mem_cons.mp he2 with rfl | hmem
          · rcases hor with h1 | h1
            · rw [hval] at h1; exact absurd h1 (by simp)
            · rw [hfd] at h1; exact absurd h1 (by simp)
          · exact ⟨e2, hmem, hor⟩
        have hstep : parseResponseGo (e :: rest) acc =
            parseResponseGo rest (setMonth acc (monthName m) v) := by
          simp [parseResponseGo, hfd, him, hval]
        rw [hstep]
        exact ih _ (fun e2 he2 => hdt e2 (by simp [he2])) hrest

/-- Unfolding equation for the `actuals` accumulation. -/
theorem actualsOf_def (bills : List BillRecord) :
    actualsOf bills = bills.flatMap billActuals := rfl

/-! ### Claims -/

/-- Claim C3, counterexample: on a present but empty bill list the
normalizer fails with the generic parsing error (the `IndexError` of
`bayou_data["bills"][0]` caught by the `except Exception` clause), which
is not the NoBills error the claim names. -/
theorem C3_counterexample :
    parse_bayou_to_palmetto (some ⟨some []⟩) = .error .parseError ∧
    NormalizationError.parseError ≠ NormalizationError.noBills :=
  ⟨rfl, by decide⟩

/-- Claim C3 (amended): on an empty bill sequence the normalizer does
fail, but with the generic parse error rather than NoBills; the NoBills
error arises exactly when the `bayou_data` wrapper is falsy or lacks the
bills key. -/
theorem C3_empty_sequence_error :
    parse_bayou_to_palmetto (some ⟨some []⟩) = .error .parseError ∧
    parse_bayou_to_palmetto none = .error .noBills ∧
    parse_bayou_to_palmetto (some ⟨none⟩) = .error .noBills :=
  ⟨rfl, rfl, rfl⟩

/-- Claim C4, counterexample: a sequence whose single bill has no meters
key contains no electric meter anywhere, yet the normalizer fails with
NoMeters, not NoElectricMeter. -/
theorem C4_counterexample :
    (∀ bill ∈ [({ meters := none
                , electricity_consumption := none } : BillRecord)],
       ∀ m ∈ bill.meters.getD [], ¬ m.type = some "electric") ∧
    parse_bayou_to_palmetto
        (some ⟨some [{ meters := none, electricity_consumption := none }]⟩) =
      .error .noMeters ∧
    NormalizationError.noMeters ≠ NormalizationError.noElectricMeter :=
  ⟨by decide, rfl, by decide⟩

/-- Claim C4 (amended): provided the first bill has a meters list, the
normalizer fails with NoElectricMeter whenever the scan of that list
finds no electric meter, or the first electric meter found lacks an
address; a first bill without a meters list fails with NoMeters instead,
even if no bill contains an electric meter. -/
theorem C4_no_electric_meter (b : BillRecord) (rest : List BillRecord)
    (ms : List MeterRecord) (hm : b.meters = some ms)
    (h : findElectricMeter ms = none ∨
         ∃ em, findElectricMeter ms = some em ∧ em.address = none) :
    parse_bayou_to_palmetto (some ⟨some (b :: rest)⟩) =
      .error .noElectricMeter := by
  have hema : electricMeterAddress b = .error .noElectricMeter := by
    rcases h with h | ⟨em, he, ha⟩
    · simp only [electricMeterAddress, hm, h]
    · simp only [electricMeterAddress, hm, he, ha]
  exact parse_err_of_address b rest _ hema

/-- Witness for C4: a first bill whose only meter is a gas meter. -/
theorem C4_no_electric_meter_witness :
    parse_bayou_to_palmetto (some ⟨some [⟨some [gasMeter], none⟩]⟩) =
      .error .noElectricMeter :=
  C4_no_electric_meter _ _ _ rfl (.inl (by decide))

/-- Claim C8: with readiness flags false, false, true, the fetch makes
exactly three status checks, sleeps 10 units (5 per pending iteration),
and requests bills exactly once, after readiness; with only the two false
flags the loop is still pending; and in every completed poll the sleep
time is exactly 5 units per pending iteration. -/
theorem C8_polling_scenario :
    get_bayou_data_trace [false, false, true] =
      some { statusChecks := 3, sleepUnits := 10, billsRequests := 1 } ∧
    get_bayou_data_trace [false, false] = none ∧
    ∀ statuses checks slept,
      pollForReady statuses = some (checks, slept) →
      slept = 5 * (checks - 1) :=
  ⟨rfl, rfl, fun statuses checks slept h =>
    (pollForReady_law statuses checks slept h).2⟩

/-- Witness for C8: the three-poll scenario instantiates the sleep law. -/
theorem C8_polling_scenario_witness :
    pollForReady [false, false, true] = some (3, 10) ∧
    (10 : Nat) = 5 * (3 - 1) :=
  ⟨rfl, C8_polling_scenario.2.2 [false, false, true] 3 10 rfl⟩

/-- Claim C1, counterexample: the first bill contains an electric meter
with an address (its second meter), yet the normalizer fails, because the
scan takes the first electric meter, which lacks an address. -/
theorem C1_counterexample :
    (∃ m ∈ [meterNoAddr, meterWithAddr],
       m.type = some "electric" ∧ m.address.isSome = true) ∧
    parse_bayou_to_palmetto
        (some ⟨some [⟨some [meterNoAddr, meterWithAddr], none⟩]⟩) =
      .error .noElectricMeter :=
  ⟨by decide, rfl⟩

/-- Claim C1 (amended): for every non-empty bill sequence whose first
bill's first electric meter carries an address, the normalizer succeeds
and the payload's location address is exactly line_1, then a space and
line_2 only when line_2 is present and non-empty, then comma-space city,
comma-space state, space postal_code. -/
theorem C1_address_formatting (b : BillRecord) (rest : List BillRecord)
    (ms : List MeterRecord) (em : MeterRecord) (a : Address)
    (hm : b.meters = some ms) (he : findElectricMeter ms = some em)
    (ha : em.address = some a) :
    ∃ p, parse_bayou_to_palmetto (some ⟨some (b :: rest)⟩) = .ok p ∧
      p.location.address =
        a.line_1 ++
          (match a.line_2 with
           | some l2 => if l2 ≠ "" then " " ++ l2 else ""
           | none => "") ++
          ", " ++ a.city ++ ", " ++ a.state ++ " " ++ a.postal_code := by
  have hema := electricMeterAddress_ok_of b ms em a hm he ha
  exact ⟨_, parse_ok_of_address b rest a hema, formatAddress_eq_spec a⟩

/-- Witness for C1: one bill, one electric meter with a full address. -/
theorem C1_address_formatting_witness :
    ∃ p, parse_bayou_to_palmetto
        (some ⟨some [⟨some [meterWithAddr], none⟩]⟩) = .ok p ∧
      p.location.address = "123 Main St, Springfield, IL 62701" := by
  obtain ⟨p, hok, haddr⟩ :=
    C1_address_formatting ⟨some [meterWithAddr], none⟩ [] [meterWithAddr]
      meterWithAddr addrA rfl (by decide) rfl
  refine ⟨p, hok, ?_⟩
  rw [haddr]
  rfl

/-- Claim C5, counterexample: the sequence contains an electric meter
with an address (in its second bill), yet normalization fails, because
only the first bill is ever consulted. -/
theorem C5_counterexample :
    (∃ bill ∈ [(⟨some [], none⟩ : BillRecord),
               ⟨some [meterWithAddr], none⟩],
       ∃ m ∈ bill.meters.getD [],
         m.type = some "electric" ∧ m.address.isSome = true) ∧
    parse_bayou_to_palmetto
        (some ⟨some [⟨some [], none⟩, ⟨some [meterWithAddr], none⟩]⟩) =
      .error .noElectricMeter :=
  ⟨by decide, rfl⟩

/-- Claim C5 (amended): the payload's address derives solely from the
first BillRecord of the sequence: normalization succeeds exactly when the
first bill has a meters list whose first electric meter carries an
address, regardless of the remaining bills, and the resulting address
does not depend on the remaining bills. -/
theorem C5_first_bill_only (b : BillRecord) (rest : List BillRecord) :
    ((∃ p, parse_bayou_to_palmetto (some ⟨some (b :: rest)⟩) = .ok p) ↔
      ∃ ms em a, b.meters = some ms ∧ findElectricMeter ms = some em ∧
        em.address = some a) ∧
    (∀ (rest2 : List BillRecord) (p p2 : PalmettoPayload),
       parse_bayou_to_palmetto (some ⟨some (b :: rest)⟩) = .ok p →
       parse_bayou_to_palmetto (some ⟨some (b :: rest2)⟩) = .ok p2 →
       p.location.address = p2.location.address) := by
  constructor
  · constructor
    · rintro ⟨p, hp⟩
      cases hema : electricMeterAddress b with
      | error e =>
        rw [parse_err_of_address b rest e hema] at hp
        exact absurd hp (by simp)
      | ok a =>
        obtain ⟨ms, em, hm, he, ha⟩ := electricMeterAddress_ok_elim b a hema
        exact ⟨ms, em, a, hm, he, ha⟩
    · rintro ⟨ms, em, a, hm, he, ha⟩
      exact ⟨_, parse_ok_of_address b rest a
        (electricMeterAddress_ok_of b ms em a hm he ha)⟩
  · intro rest2 p p2 hp hp2
    cases hema : electricMeterAddress b with
    | error e =>
      rw [parse_err_of_address b rest e hema] at hp
      exact absurd hp (by simp)
    | ok a =>
      rw [parse_ok_of_address b rest a hema] at hp
      rw [parse_ok_of_address b rest2 a hema] at hp2
      injection hp with h
      injection hp2 with h2
      rw [← h, ← h2]

/-- Witness for C5: a sequence whose first bill qualifies succeeds. -/
theorem C5_first_bill_only_witness :
    ∃ p, parse_bayou_to_palmetto
        (some ⟨some [⟨some [meterWithAddr], none⟩, gasOnlyBill]⟩) = .ok p :=
  (C5_first_bill_only ⟨some [meterWithAddr], none⟩ [gasOnlyBill]).1.mpr
    ⟨[meterWithAddr], meterWithAddr, addrA, rfl, by decide, rfl⟩

/-- Claim C9: when the produced interval sequence is empty the normalizer
still succeeds and the payload carries no consumption entry at all; when
it is non-empty the payload carries the full sequence under
consumption.actuals. -/
theorem C9_actuals_attachment (b : BillRecord) (rest : List BillRecord)
    (a : Address) (ha : electricMeterAddress b = .ok a) :
    ∃ p, parse_bayou_to_palmetto (some ⟨some (b :: rest)⟩) = .ok p ∧
      (actualsOf (b :: rest) = [] → p.consumption = none) ∧
      (actualsOf (b :: rest) ≠ [] →
        p.consumption = some (actualsOf (b :: rest))) := by
  refine ⟨_, parse_ok_of_address b rest a ha, fun h => ?_, fun h => ?_⟩
  · simp [h]
  · simp [h]

/-- Witness for C9: a bill sequence producing no intervals still yields a
payload, with no consumption entry. -/
theorem C9_actuals_attachment_witness :
    electricMeterAddress ⟨some [meterWithAddr], none⟩ = .ok addrA ∧
    ∃ p, parse_bayou_to_palmetto
        (some ⟨some [(⟨some [meterWithAddr], none⟩ : BillRecord)]⟩) =
        .ok p ∧
      (actualsOf [(⟨some [meterWithAddr], none⟩ : BillRecord)] = [] →
        p.consumption = none) ∧
      (actualsOf [(⟨some [meterWithAddr], none⟩ : BillRecord)] ≠ [] →
        p.consumption =
          some (actualsOf [(⟨some [meterWithAddr], none⟩ : BillRecord)])) :=
  ⟨rfl, C9_actuals_attachment _ [] addrA rfl⟩

/-- Claim C10: a bill that carries a consumption value but has no meter
that is electric with both billing-period bounds contributes no interval
and causes no error: the normalizer gives the same result with or without
that bill (as long as it is not the address-determining first bill). -/
theorem C10_consumption_skipped (b : BillRecord)
    (hc : b.electricity_consumption.isSome = true)
    (hm : ∀ m ∈ b.meters.getD [], isQualifyingMeter m = false) :
    billActuals b = [] ∧
    ∀ (bills1 bills2 : List BillRecord), bills1 ≠ [] →
      parse_bayou_to_palmetto (some ⟨some (bills1 ++ b :: bills2)⟩) =
        parse_bayou_to_palmetto (some ⟨some (bills1 ++ bills2)⟩) := by
  have hba : billActuals b = [] := by
    obtain ⟨c, hcv⟩ := Option.isSome_iff_exists.mp hc
    have hfind : findConsumptionMeter (b.meters.getD []) = none := by
      rw [findConsumptionMeter_eq_find]
      exact List.find?_eq_none.mpr fun m hmem => by simp [hm m hmem]
    simp [billActuals, hcv, hfind]
  refine ⟨hba, fun bills1 bills2 hne => ?_⟩
  cases bills1 with
  | nil => exact absurd rfl hne
  | cons b0 rest1 =>
    have hact : actualsOf (b0 :: (rest1 ++ b :: bills2)) =
        actualsOf (b0 :: (rest1 ++ bills2)) := by
      simp [actualsOf_cons, actualsOf_append, hba]
    have hsplit1 : (b0 :: rest1) ++ b :: bills2 =
        b0 :: (rest1 ++ b :: bills2) := rfl
    have hsplit2 : (b0 :: rest1) ++ bills2 = b0 :: (rest1 ++ bills2) := rfl
    rw [hsplit1, hsplit2]
    cases hema : electricMeterAddress b0 with
    | error e =>
      rw [parse_err_of_address _ _ e hema, parse_err_of_address _ _ e hema]
    | ok a =>
      rw [parse_ok_of_address _ _ a hema, parse_ok_of_address _ _ a hema,
        hact]

/-- Witness for C10: a gas-only bill with consumption 7000 is dropped. -/
theorem C10_consumption_skipped_witness :
    billActuals gasOnlyBill = [] ∧
    parse_bayou_to_palmetto
        (some ⟨some [⟨some [meterWithAddr], none⟩, gasOnlyBill]⟩) =
      parse_bayou_to_palmetto
        (some ⟨some [⟨some [meterWithAddr], none⟩]⟩) := by
  have h := C10_consumption_skipped gasOnlyBill (by decide) (by decide)
  exact ⟨h.1, h.2 [⟨some [meterWithAddr], none⟩] []
    (List.cons_ne_nil _ _)⟩

/-- Claim C2: a bill without a consumption value emits no interval; one
with consumption c emits at most one interval, namely the billing period
of the first meter that is electric with both billing-period bounds and
value c/1000 (or nothing when no meter qualifies); and a successful
payload carries exactly the concatenation of the per-bill intervals. -/
theorem C2_interval_per_bill :
    (∀ b : BillRecord, b.electricity_consumption = none →
       billActuals b = []) ∧
    (∀ (b : BillRecord) (c : ℚ), b.electricity_consumption = some c →
      (billActuals b).length ≤ 1 ∧
      (∀ m, (b.meters.getD []).find? isQualifyingMeter = some m →
         billActuals b =
           [{ from_datetime := m.billing_period_from.getD ""
            , to_datetime := m.billing_period_to.getD ""
            , variable_name := "consumption.electricity"
            , value := c / 1000 }]) ∧
      ((b.meters.getD []).find? isQualifyingMeter = none →
        billActuals b = [])) ∧
    (∀ (bills : List BillRecord) (p : PalmettoPayload),
       parse_bayou_to_palmetto (some ⟨some bills⟩) = .ok p →
       p.consumption.getD [] = bills.flatMap billActuals) := by
  refine ⟨fun b h => by simp [billActuals, h], fun b c h => ⟨?_, ?_, ?_⟩,
    fun bills p hp => ?_⟩
  · cases hf : findConsumptionMeter (b.meters.getD []) <;>
      simp [billActuals, h, hf]
  · intro m hmf
    rw [← findConsumptionMeter_eq_find] at hmf
    simp [billActuals, h, hmf]
  · intro hnone
    rw [← findConsumptionMeter_eq_find] at hnone
    simp [billActuals, h, hnone]
  · cases bills with
    | nil =>
      rw [show parse_bayou_to_palmetto (some ⟨some []⟩) =
          .error .parseError from rfl] at hp
      exact absurd hp (by simp)
    | cons b rest =>
      cases hema : electricMeterAddress b with
      | error e =>
        rw [parse_err_of_address b rest e hema] at hp
        exact absurd hp (by simp)
      | ok a =>
        rw [parse_ok_of_address b rest a hema] at hp
        injection hp with hpay
        rw [← hpay, ← actualsOf_def]
        by_cases hact : actualsOf (b :: rest) = []
        · simp [hact]
        · simp [hact]

/-- Witness for C2: a consumption-free gas bill emits nothing; the
12000-consumption bill emits the single 12 kWh interval of its electric
meter. -/
theorem C2_interval_per_bill_witness :
    billActuals ⟨some [gasMeter], none⟩ = [] ∧
    billActuals goodBill =
      [{ from_datetime := "2025-01-01T00:00:00"
       , to_datetime := "2025-01-31T00:00:00"
       , variable_name := "consumption.electricity"
       , value := 12000 / 1000 }] := by
  refine ⟨C2_interval_per_bill.1 ⟨some [gasMeter], none⟩ rfl, ?_⟩
  have h := (C2_interval_per_bill.2.1 goodBill 12000 rfl).2.1 goodMeter
    (by decide)
  simpa [goodMeter] using h

/-- Claim C6: an interval entry lacking a value field or a from_datetime
field makes the aggregator fail with the missing-field error (assuming
the datetimes that are present parse, so no earlier failure precedes
it). -/
theorem C6_missing_field (l : List IntervalEntry)
    (hdt : ∀ e ∈ l, e.from_datetime.all (fun s => (isoMonth s).isSome) = true)
    (hmiss : ∃ e ∈ l, e.value = none ∨ e.from_datetime = none) :
    parse_response l = .error .missingField :=
  parseResponseGo_missing l emptyPredictions hdt hmiss

/-- Witness for C6: a March-dated entry without a value field. -/
theorem C6_missing_field_witness :
    parse_response [⟨some "2025-03-01T00:00:00", none⟩] =
      .error .missingField :=
  C6_missing_field _ (by decide) (by decide)

/-- Claim C7: for well-formed responses the aggregator succeeds and maps
each month name (derived from from_datetime, year discarded) to the value
of the latest entry filed under it: lookups in the resulting mapping are
first-match lookups over the reversed entry list. -/
theorem C7_month_aggregation (l : List IntervalEntry)
    (hwf : ∀ e ∈ l, (entryKey e).isSome = true ∧ e.value.isSome = true) :
    ∃ f, parse_response l = .ok f ∧
      ∀ name, f name = firstVal (entryKVs l).reverse name := by
  obtain ⟨f, hok, hf⟩ := parseResponseGo_ok l emptyPredictions hwf
  refine ⟨f, hok, fun name => ?_⟩
  rw [hf name]
  cases firstVal (entryKVs l).reverse name <;> rfl

/-- Witness for C7: two March-dated entries with values 10 then 20 map
March to 20. -/
theorem C7_month_aggregation_witness :
    ∃ f, parse_response marchResponse = .ok f ∧ f "March" = some 20 := by
  obtain ⟨f, hok, hf⟩ := C7_month_aggregation marchResponse (by decide)
  exact ⟨f, hok, by rw [hf]; rfl⟩

end EnergyInsights
